import Mathlib

set_option allowUnsafeReducibility true in
attribute [semireducible] Rat.mul Rat.inv Rat.add Nat.gcd

deriving instance DecidableEq for Except

/-!
Shallow embedding of `main.py` of the switchbotBLElogger repository: a BLE
telemetry collector that decodes SwitchBot Meter / Plug Mini advertisement
payloads and appends deduplicated readings to per-device, per-day CSV files.

Python floats are modelled by `ℚ` (the decode arithmetic — masks, shifts,
division by 10 — is exact), Python `bytes` by `List Nat`, Python exceptions
(`IndexError` from `bytes[i]`, `KeyError` from `dict[k]`, `OSError` from
`open`) by an `Except Err` result that aborts the enclosing computation, and
the filesystem by an explicit record of existing directories and file
contents, where an append-mode `open` succeeds exactly when the enclosing
directory exists (the script itself never creates a directory).
-/

/-- Runtime errors of the embedded script: `IndexError` from indexing a
byte string, `KeyError` from a dict lookup, `OSError`/`IOError` from file
operations. -/
inductive Err where
  | indexError
  | keyError
  | ioError
deriving DecidableEq, Repr

/-- A wall-clock timestamp as the fields of `datetime.datetime` that the
script uses. -/
structure Timestamp where
  year : Nat
  month : Nat
  day : Nat
  hour : Nat
  minute : Nat
  second : Nat
deriving DecidableEq, Repr

/-- The full calendar date of a timestamp. -/
def Timestamp.calendarDay (t : Timestamp) : Nat × Nat × Nat :=
  (t.year, t.month, t.day)

/-- Left-pad the decimal form of `n` with zeros to width 2, as `strftime`
does for `%m`/`%d`. -/
def pad2 (n : Nat) : String :=
  if n < 10 then "0" ++ toString n else toString n

/-- Left-pad the decimal form of `n` with zeros to width 4, as `strftime`
does for `%Y`. -/
def pad4 (n : Nat) : String :=
  if n < 10 then "000" ++ toString n
  else if n < 100 then "00" ++ toString n
  else if n < 1000 then "0" ++ toString n
  else toString n

/-- `time.strftime("%Y%m%d")`. -/
def strftimeYmd (t : Timestamp) : String :=
  pad4 t.year ++ pad2 t.month ++ pad2 t.day

/-- `bytes` indexing `b[i]`: the byte, or an `IndexError` past the end. -/
def listGet (l : List Nat) (i : Nat) : Except Err Nat :=
  match l.get? i with
  | some v => Except.ok v
  | none => Except.error Err.indexError

/-- A decoded reading: the Python tuples `(temp, hum)` (Meter branch) and
`(power,)` (Plug branch).  Tuples of different shapes are never equal, so
the two variants never compare equal, matching Python `!=` on the tuples. -/
inductive Reading where
  | meter (temp : ℚ) (hum : ℚ)
  | plug (power : ℚ)
deriving DecidableEq, Repr

/-- The fields of a reading in the order the script writes them into a
row: `(temp, hum)` for a meter, `(power,)` for a plug. -/
def Reading.fields : Reading → List ℚ
  | Reading.meter t h => [t, h]
  | Reading.plug p => [p]

/-- One advertisement event: the device address and the raw scan data, a
list of `(adtype, value)` entries as returned by `device.getScanData()`
(values already as byte lists; the script's hex-string round trip is
dropped, an absent entry is the empty list like the script's `""`). -/
structure ScanEntry where
  addr : String
  scanData : List (Nat × List Nat)
deriving DecidableEq, Repr

/-- `get_broadcast_message`: scan the advertisement entries, keeping the
last adtype `0xff` value as manufacturer data and the last adtype `0x16`
value as service data, defaulting to empty. -/
def get_broadcast_message (device : ScanEntry) : List Nat × List Nat :=
  device.scanData.foldl
    (fun acc e =>
      let acc := if e.1 = 0xff then (e.2, acc.2) else acc
      if e.1 = 0x16 then (acc.1, e.2) else acc)
    ([], [])

/-- `decode_plug_power`: reads `mf_data[8]`, `mf_data[9]` (sequence number
and state, unused), then `power = ((mf_data[12] & 0x7f) << 8) + mf_data[13]`
scaled by `/ 10.0`. -/
def decode_plug_power (mf_data : List Nat) : Except Err ℚ := do
  let _seqNum ← listGet mf_data 8
  let _state ← listGet mf_data 9
  let hi ← listGet mf_data 12
  let lo ← listGet mf_data 13
  let power : ℚ := (((hi &&& 0x7f) <<< 8) + lo : Nat)
  Except.ok (power / 10)

/-- `decode_meter_temp_and_hum`: fraction from the low nibble of
`mf_data[10]`, magnitude from the low 7 bits of `mf_data[11]`, sign `+1`
when bit 7 of `mf_data[11]` is set and `-1` otherwise, humidity from the
low 7 bits of `mf_data[12]`. -/
def decode_meter_temp_and_hum (mf_data : List Nat) : Except Err (ℚ × ℚ) := do
  let b10 ← listGet mf_data 10
  let b11 ← listGet mf_data 11
  let b12 ← listGet mf_data 12
  let temp_float : ℚ := ((b10 &&& 0x0f : Nat) : ℚ)
  let temp_int : ℚ := ((b11 &&& 0x7f : Nat) : ℚ)
  let temp_sign : ℚ := if b11 &&& 0x80 = 0x80 then 1 else -1
  let temp : ℚ := temp_sign * temp_int + (1 / 10) * temp_float
  let hum : ℚ := ((b12 &&& 0x7f : Nat) : ℚ)
  Except.ok (temp, hum)

/-- One appended CSV row: the timestamp and the reading's fields, in the
order the script joins them. -/
structure LogRow where
  time : Timestamp
  fields : List ℚ
deriving DecidableEq, Repr

/-- The filesystem visible to the script: which directories exist and the
rows of each file, keyed by absolute path.  Nothing in the script creates
a directory. -/
structure FS where
  dirs : List String
  files : List (String × List LogRow)
deriving DecidableEq, Repr

/-- Append one row to the file at `path`, creating the file (append-mode
`open`) when it does not exist yet. -/
def fsAppend (files : List (String × List LogRow)) (path : String)
    (row : LogRow) : List (String × List LogRow) :=
  if path ∈ files.map Prod.fst then
    files.map (fun p => if p.1 = path then (p.1, p.2 ++ [row]) else p)
  else
    files ++ [(path, [row])]

/-- The rows currently stored at `path` (empty when the file is absent). -/
def fileRows (fs : FS) (path : String) : List LogRow :=
  match fs.files.lookup path with
  | some rows => rows
  | none => []

/-- `update_log_file(dir, time, value)`: build the path
`dir + "/" + time.strftime("%Y%m%d") + ".csv"` and append one row in
append mode.  `open` raises (here: `Err.ioError`) when the directory
`dir` does not exist — the script never creates it. -/
def update_log_file (fs : FS) (dir : String) (time : Timestamp)
    (value : List ℚ) : Except Err FS :=
  let path := dir ++ "/" ++ strftimeYmd time ++ ".csv"
  if dir ∈ fs.dirs then
    Except.ok { dirs := fs.dirs, files := fsAppend fs.files path ⟨time, value⟩ }
  else
    Except.error Err.ioError

/-- The `prev_val` dictionary: BLE address to optional last-written
reading, as an association list in insertion order. -/
abbrev Store : Type := List (String × Option Reading)

/-- The key set of the dictionary. -/
def storeKeys (s : Store) : List String :=
  s.map Prod.fst

/-- Python `dict[k]` read: `KeyError` when the key is absent. -/
def storeGet (s : Store) (k : String) : Except Err (Option Reading) :=
  match s.lookup k with
  | some v => Except.ok v
  | none => Except.error Err.keyError

/-- Python `dict[k] = v`: overwrite the first binding of `k`, or append a
new binding when `k` is absent. -/
def storeSet (s : Store) (k : String) (v : Option Reading) : Store :=
  if k ∈ s.map Prod.fst then
    s.map (fun p => if p.1 = k then (p.1, v) else p)
  else
    s ++ [(k, v)]

/-- `prev_val` initialisation: every allow-listed MAC address mapped to
`None`. -/
def initPrevVal (macList : List String) : Store :=
  macList.map (fun mac => (mac, none))

/-- `is_value_different(devaddr, value)`: `True` when no value is stored
for the address or the stored value differs; reading `prev_val[devaddr]`
raises `KeyError` if the address is not a key. -/
def is_value_different (prev_val : Store) (devaddr : String)
    (value : Reading) : Except Err Bool := do
  let stored ← storeGet prev_val devaddr
  match stored with
  | none => Except.ok true
  | some old => Except.ok (decide (old ≠ value))

/-- `is_day_different(now)`: `True` when no previous scan time exists or
its day-of-month field differs from `now`'s. -/
def is_day_different (prev_time : Option Timestamp) (now : Timestamp) :
    Bool :=
  match prev_time with
  | none => true
  | some t => decide (t.day ≠ now.day)

/-- The dedup check guarding each write:
`is_value_different(dev.addr, value) or is_day_different(now)`. -/
def dedupCheck (prev_val : Store) (prev_time : Option Timestamp)
    (devaddr : String) (value : Reading) (now : Timestamp) :
    Except Err Bool := do
  let dv ← is_value_different prev_val devaddr value
  Except.ok (dv || is_day_different prev_time now)

/-- Which decoder a processed event invoked, with the bytes passed to it. -/
inductive DecCall where
  | meterCall (mf : List Nat)
  | plugCall (mf : List Nat)
deriving DecidableEq, Repr

/-- The configuration constants: `SWITCHBOT_MAC_LIST` and `LOG_DIRECTORY`. -/
structure Config where
  macList : List String
  logDir : String
deriving DecidableEq, Repr

/-- `dev.addr.replace(":", "")`: drop every colon character. -/
def stripColons (s : String) : String :=
  String.mk (s.data.filter (fun c => decide (c ≠ ':')))

/-- The Meter branch body (`service_data_bytes[2] == 0x54 or 0x77`):
decode, run the dedup check, and on `True` append a row and store the
reading; the store update happens only after a successful write. -/
def meterBranch (cfg : Config) (prev_time : Option Timestamp)
    (now : Timestamp) (prev_val : Store) (fs : FS) (addr : String)
    (mf : List Nat) : Except Err (Store × FS) := do
  let th ← decode_meter_temp_and_hum mf
  let b ← dedupCheck prev_val prev_time addr (Reading.meter th.1 th.2) now
  if b then do
    let fs' ← update_log_file fs (cfg.logDir ++ "/" ++ stripColons addr) now
      [th.1, th.2]
    Except.ok (storeSet prev_val addr (some (Reading.meter th.1 th.2)), fs')
  else
    Except.ok (prev_val, fs)

/-- The Plug branch body (`service_data_bytes[2] == 0x6a`). -/
def plugBranch (cfg : Config) (prev_time : Option Timestamp)
    (now : Timestamp) (prev_val : Store) (fs : FS) (addr : String)
    (mf : List Nat) : Except Err (Store × FS) := do
  let p ← decode_plug_power mf
  let b ← dedupCheck prev_val prev_time addr (Reading.plug p) now
  if b then do
    let fs' ← update_log_file fs (cfg.logDir ++ "/" ++ stripColons addr) now
      [p]
    Except.ok (storeSet prev_val addr (some (Reading.plug p)), fs')
  else
    Except.ok (prev_val, fs)

/-- The body of `for dev in devices` for a single device: allow-list
check, message extraction, emptiness check, discriminator read, then the
Meter `if` followed by the Plug `if` (they are separate `if`s in the
script, not `elif`).  Alongside the resulting state, the list of decoder
invocations made is returned; an uncaught exception is an `Except.error`
(which in the script propagates out of `main`'s loop). -/
def processDev (cfg : Config) (prev_time : Option Timestamp)
    (now : Timestamp) (prev_val : Store) (fs : FS) (dev : ScanEntry) :
    List DecCall × Except Err (Store × FS) :=
  if dev.addr ∈ cfg.macList then
    let ms := get_broadcast_message dev
    if ms.1 = [] ∨ ms.2 = [] then
      ([], Except.ok (prev_val, fs))
    else
      match listGet ms.2 2 with
      | Except.error e => ([], Except.error e)
      | Except.ok d =>
        let step1 : List DecCall × Except Err (Store × FS) :=
          if d = 0x54 ∨ d = 0x77 then
            ([DecCall.meterCall ms.1],
              meterBranch cfg prev_time now prev_val fs dev.addr ms.1)
          else
            ([], Except.ok (prev_val, fs))
        match step1.2 with
        | Except.error e => (step1.1, Except.error e)
        | Except.ok pf =>
          if d = 0x6a then
            (step1.1 ++ [DecCall.plugCall ms.1],
              plugBranch cfg prev_time now pf.1 pf.2 dev.addr ms.1)
          else
            step1
  else
    ([], Except.ok (prev_val, fs))

/-- The whole `for dev in devices` loop of one scan iteration. -/
def processDevs (cfg : Config) (prev_time : Option Timestamp)
    (now : Timestamp) : Store → FS → List ScanEntry →
    Except Err (Store × FS)
  | prev_val, fs, [] => Except.ok (prev_val, fs)
  | prev_val, fs, dev :: rest =>
    match (processDev cfg prev_time now prev_val fs dev).2 with
    | Except.error e => Except.error e
    | Except.ok pf => processDevs cfg prev_time now pf.1 pf.2 rest

/-- The mutable state of `main`'s loop: `prev_time`, `prev_val`, and the
filesystem. -/
structure MainState where
  prevTime : Option Timestamp
  prevVal : Store
  fs : FS
deriving DecidableEq, Repr

/-- One scan iteration as delivered by the BLE stack: the `now` taken at
the top of the loop and the devices returned by `scanner.scan(1)`. -/
structure Iteration where
  now : Timestamp
  devices : List ScanEntry
deriving DecidableEq, Repr

/-- One pass of the `while True` body: process every scanned device,
then `prev_time = now`. -/
def processIteration (cfg : Config) (st : MainState) (it : Iteration) :
    Except Err MainState :=
  match processDevs cfg st.prevTime it.now st.prevVal st.fs it.devices with
  | Except.error e => Except.error e
  | Except.ok pf => Except.ok ⟨some it.now, pf.1, pf.2⟩

/-- Run `main`'s loop over a finite list of scan iterations; any uncaught
exception aborts the whole run (only `KeyboardInterrupt` is handled in
the script). -/
def runLoop (cfg : Config) : MainState → List Iteration →
    Except Err MainState
  | st, [] => Except.ok st
  | st, it :: rest =>
    match processIteration cfg st it with
    | Except.error e => Except.error e
    | Except.ok st' => runLoop cfg st' rest

/-- The state at startup: no previous scan time, the allow-list addresses
pre-seeded to `None`, and the ambient filesystem. -/
def initState (cfg : Config) (fs : FS) : MainState :=
  ⟨none, initPrevVal cfg.macList, fs⟩

/-- Modelled from the spec (§4.3 ReadingStore): `shouldLog` as the spec
words it — true iff no prior reading exists for the address, or the
candidate differs from the stored last reading, or the calendar day of
that address's last write differs from `now`'s calendar day.  Stated over
a per-address `lastReading` and per-address `lastWriteDay`, which the
script does not maintain; used to compare the spec's check with the
script's `dedupCheck`. -/
def shouldLogSpec (lastReading : Option Reading)
    (lastWriteDay : Option (Nat × Nat × Nat)) (candidate : Reading)
    (now : Timestamp) : Bool :=
  lastReading.isNone || decide (lastReading ≠ some candidate) ||
    decide (lastWriteDay ≠ some now.calendarDay)

/-- The full path `update_log_file` writes to for a device address and a
timestamp: base directory, colon-free address, `YYYYMMDD.csv`. -/
def logPath (logDir addr : String) (t : Timestamp) : String :=
  (logDir ++ "/" ++ stripColons addr) ++ "/" ++ strftimeYmd t ++ ".csv"

/-- The filesystem after appending one row at `path`. -/
def fsWrite (fs : FS) (path : String) (row : LogRow) : FS :=
  ⟨fs.dirs, fsAppend fs.files path row⟩


section Helpers

lemma listGet_err_of_le {l : List Nat} {i : Nat} (h : l.length ≤ i) :
    listGet l i = Except.error Err.indexError := by
  unfold listGet
  rw [List.get?_eq_none.2 h]

lemma listGet_ok_or_err (l : List Nat) (i : Nat) :
    (∃ v, listGet l i = Except.ok v) ∨ listGet l i = Except.error Err.indexError := by
  unfold listGet
  cases l.get? i with
  | none => exact Or.inr rfl
  | some v => exact Or.inl ⟨v, rfl⟩

lemma update_log_file_ok {fs : FS} {dir : String} (t : Timestamp)
    (v : List ℚ) (h : dir ∈ fs.dirs) :
    update_log_file fs dir t v
      = Except.ok (fsWrite fs (dir ++ "/" ++ strftimeYmd t ++ ".csv") ⟨t, v⟩) := by
  simp [update_log_file, h, fsWrite]

lemma update_log_file_err {fs : FS} {dir : String} (t : Timestamp)
    (v : List ℚ) (h : dir ∉ fs.dirs) :
    update_log_file fs dir t v = Except.error Err.ioError := by
  simp [update_log_file, h]

lemma land_pow7 (b : Nat) : b &&& 0x7f = b % 128 := by
  have := Nat.and_pow_two_sub_one_eq_mod b 7
  norm_num at this
  exact this

lemma land_pow4 (b : Nat) : b &&& 0x0f = b % 16 := by
  have := Nat.and_pow_two_sub_one_eq_mod b 4
  norm_num at this
  exact this

lemma land_bit7 (b : Nat) : (b &&& 0x80 = 0x80) = (b.testBit 7 = true) := by
  have h := Nat.and_two_pow b 7
  norm_num at h
  cases hb : b.testBit 7 <;> simp [hb] at h <;> simp [h]

end Helpers

/-- **C5** — for manufacturer data long enough (bytes 10, 11, 12 exist),
the meter decoder returns `temperature = sign * integerMagnitude +
0.1 * fractionalPart` with `fractionalPart` the low nibble of byte 10,
`integerMagnitude` the low 7 bits of byte 11, sign `+1` exactly when the
high bit (bit 7) of byte 11 is set and `-1` when clear, and `humidity`
the low 7 bits of byte 12. -/
theorem C5_meter_decode (mf : List Nat) (b10 b11 b12 : Nat)
    (h10 : listGet mf 10 = Except.ok b10)
    (h11 : listGet mf 11 = Except.ok b11)
    (h12 : listGet mf 12 = Except.ok b12) :
    decode_meter_temp_and_hum mf
      = Except.ok ((if b11.testBit 7 then (1 : ℚ) else -1) * ((b11 % 128 : Nat) : ℚ)
          + (1 / 10) * ((b10 % 16 : Nat) : ℚ), ((b12 % 128 : Nat) : ℚ)) := by
  simp only [decode_meter_temp_and_hum, h10, h11, h12, Bind.bind, Except.bind,
    land_pow7, land_pow4, land_bit7]

/-- Witness for `C5_meter_decode` at the spec's two example inputs: sign
bit set, magnitude 25, fraction 3 gives 25.3; sign bit clear, magnitude
5, fraction 0 gives −5.0. -/
theorem C5_meter_decode_witness :
    decode_meter_temp_and_hum [0, 0, 0, 0, 0, 0, 0, 0, 0, 0, 3, 0x99, 40]
      = Except.ok (253 / 10, 40)
    ∧ decode_meter_temp_and_hum [0, 0, 0, 0, 0, 0, 0, 0, 0, 0, 0, 5, 40]
      = Except.ok (-5, 40) := by
  constructor
  · rw [C5_meter_decode _ 3 0x99 40 (by decide) (by decide) (by decide)]
    decide
  · rw [C5_meter_decode _ 0 5 40 (by decide) (by decide) (by decide)]
    decide

/-- **C6** — for manufacturer data long enough, the plug decoder returns
`power = (((highByte & 0x7F) << 8) | lowByte) / 10.0` watts, the result
lies between 0 and 3276.7 W, and the value depends on the high byte only
through its low 7 bits (the top bit is masked off). -/
theorem C6_plug_decode (mf : List Nat) (s0 s1 hi lo : Nat)
    (h8 : listGet mf 8 = Except.ok s0) (h9 : listGet mf 9 = Except.ok s1)
    (h12 : listGet mf 12 = Except.ok hi) (h13 : listGet mf 13 = Except.ok lo)
    (hlo : lo < 256) :
    decode_plug_power mf
      = Except.ok (((((hi &&& 0x7f) <<< 8) ||| lo : Nat) : ℚ) / 10)
    ∧ (0 : ℚ) ≤ ((((hi &&& 0x7f) <<< 8) ||| lo : Nat) : ℚ) / 10
    ∧ ((((hi &&& 0x7f) <<< 8) ||| lo : Nat) : ℚ) / 10 ≤ 32767 / 10
    ∧ hi &&& 0x7f = (hi % 128) &&& 0x7f := by
  have hor : ((hi &&& 0x7f) <<< 8) + lo = ((hi &&& 0x7f) <<< 8) ||| lo := by
    rw [Nat.shiftLeft_eq, Nat.mul_comm]
    exact Nat.mul_add_lt_is_or (by omega : lo < 2 ^ 8) _
  have hraw : ((hi &&& 0x7f) <<< 8) + lo ≤ 32767 := by
    have h1 : hi &&& 0x7f ≤ 127 := Nat.and_le_right
    have h2 : (hi &&& 0x7f) <<< 8 ≤ 127 * 256 := by
      rw [Nat.shiftLeft_eq]
      calc (hi &&& 0x7f) * 2 ^ 8 ≤ 127 * 2 ^ 8 := Nat.mul_le_mul_right _ h1
        _ = 127 * 256 := by norm_num
    omega
  refine ⟨?_, ?_, ?_, ?_⟩
  · simp only [decode_plug_power, h8, h9, h12, h13, Bind.bind, Except.bind, hor]
  · positivity
  · rw [div_le_div_iff_of_pos_right (by norm_num : (0:ℚ) < 10)]
    rw [← hor]
    exact_mod_cast hraw
  · rw [land_pow7, land_pow7, Nat.mod_mod_of_dvd hi (dvd_refl 128)]

/-- Witness for `C6_plug_decode`: high/low bytes `0x00, 0x96` give 15.0 W,
and a high byte `0xFF` decodes identically to `0x7F` (top bit masked). -/
theorem C6_plug_decode_witness :
    decode_plug_power [0, 0, 0, 0, 0, 0, 0, 0, 1, 2, 0, 0, 0x00, 0x96]
      = Except.ok 15
    ∧ decode_plug_power [0, 0, 0, 0, 0, 0, 0, 0, 1, 2, 0, 0, 0xff, 0]
      = decode_plug_power [0, 0, 0, 0, 0, 0, 0, 0, 1, 2, 0, 0, 0x7f, 0] := by
  constructor
  · rw [(C6_plug_decode _ 1 2 0x00 0x96 (by decide) (by decide) (by decide)
      (by decide) (by decide)).1]
    decide
  · rw [(C6_plug_decode _ 1 2 0xff 0 (by decide) (by decide) (by decide)
      (by decide) (by decide)).1,
      (C6_plug_decode _ 1 2 0x7f 0 (by decide) (by decide) (by decide)
      (by decide) (by decide)).1]
    decide

lemma processDev_not_mem (cfg : Config) (pt : Option Timestamp)
    (now : Timestamp) (pv : Store) (fs : FS) (dev : ScanEntry)
    (hmem : dev.addr ∉ cfg.macList) :
    processDev cfg pt now pv fs dev = ([], Except.ok (pv, fs)) := by
  unfold processDev
  rw [if_neg hmem]

lemma processDev_empty_msg (cfg : Config) (pt : Option Timestamp)
    (now : Timestamp) (pv : Store) (fs : FS) (dev : ScanEntry)
    (mf sd : List Nat) (hmsg : get_broadcast_message dev = (mf, sd))
    (hempty : mf = [] ∨ sd = []) :
    processDev cfg pt now pv fs dev = ([], Except.ok (pv, fs)) := by
  unfold processDev
  rw [hmsg]
  by_cases hmem : dev.addr ∈ cfg.macList
  · rw [if_pos hmem, if_pos hempty]
  · rw [if_neg hmem]

lemma processDev_sd_short (cfg : Config) (pt : Option Timestamp)
    (now : Timestamp) (pv : Store) (fs : FS) (dev : ScanEntry)
    (mf sd : List Nat)
    (hmem : dev.addr ∈ cfg.macList)
    (hmsg : get_broadcast_message dev = (mf, sd))
    (hmf : mf ≠ []) (hsd : sd ≠ [])
    (hlen : sd.length ≤ 2) :
    processDev cfg pt now pv fs dev = ([], Except.error Err.indexError) := by
  unfold processDev
  rw [if_pos hmem, hmsg]
  rw [if_neg (by simp [hmf, hsd])]
  rw [listGet_err_of_le hlen]

lemma processDev_meter (cfg : Config) (pt : Option Timestamp)
    (now : Timestamp) (pv : Store) (fs : FS) (dev : ScanEntry)
    (mf sd : List Nat)
    (hmem : dev.addr ∈ cfg.macList)
    (hmsg : get_broadcast_message dev = (mf, sd))
    (hmf : mf ≠ []) (hsd : sd ≠ [])
    (hd : listGet sd 2 = Except.ok 0x54 ∨ listGet sd 2 = Except.ok 0x77) :
    processDev cfg pt now pv fs dev
      = ([DecCall.meterCall mf], meterBranch cfg pt now pv fs dev.addr mf) := by
  unfold processDev
  rw [if_pos hmem, hmsg]
  rw [if_neg (by simp [hmf, hsd])]
  rcases hd with hd | hd <;>
  · rw [hd]
    simp only
    rw [if_pos (by norm_num)]
    cases hmb : meterBranch cfg pt now pv fs dev.addr mf with
    | error e => simp [hmb]
    | ok pf => simp [hmb]

lemma processDev_plug (cfg : Config) (pt : Option Timestamp)
    (now : Timestamp) (pv : Store) (fs : FS) (dev : ScanEntry)
    (mf sd : List Nat)
    (hmem : dev.addr ∈ cfg.macList)
    (hmsg : get_broadcast_message dev = (mf, sd))
    (hmf : mf ≠ []) (hsd : sd ≠ [])
    (hd : listGet sd 2 = Except.ok 0x6a) :
    processDev cfg pt now pv fs dev
      = ([DecCall.plugCall mf], plugBranch cfg pt now pv fs dev.addr mf) := by
  unfold processDev
  rw [if_pos hmem, hmsg]
  rw [if_neg (by simp [hmf, hsd])]
  rw [hd]
  simp only
  rw [if_neg (by norm_num)]
  simp

lemma processDev_unknown (cfg : Config) (pt : Option Timestamp)
    (now : Timestamp) (pv : Store) (fs : FS) (dev : ScanEntry)
    (mf sd : List Nat) (d : Nat)
    (hmem : dev.addr ∈ cfg.macList)
    (hmsg : get_broadcast_message dev = (mf, sd))
    (hmf : mf ≠ []) (hsd : sd ≠ [])
    (hd : listGet sd 2 = Except.ok d)
    (h54 : d ≠ 0x54) (h77 : d ≠ 0x77) (h6a : d ≠ 0x6a) :
    processDev cfg pt now pv fs dev = ([], Except.ok (pv, fs)) := by
  unfold processDev
  rw [if_pos hmem, hmsg]
  rw [if_neg (by simp [hmf, hsd])]
  rw [hd]
  simp only
  rw [if_neg (by simp [h54, h77])]
  simp only
  rw [if_neg h6a]

/-- **C7** — the discriminator byte `service_data[2]` routes exclusively:
`0x54`/`0x77` invoke only the meter decoder, `0x6a` invokes only the plug
decoder, any other value causes no decode call, no write and no state
change, and an event lacking the service-data or manufacturer-data entry
is dropped with no side effects. -/
theorem C7_classification_exclusive (cfg : Config) (pt : Option Timestamp)
    (now : Timestamp) (pv : Store) (fs : FS) (dev : ScanEntry)
    (mf sd : List Nat) (d : Nat)
    (hmem : dev.addr ∈ cfg.macList)
    (hmsg : get_broadcast_message dev = (mf, sd)) :
    (mf ≠ [] → sd ≠ [] → listGet sd 2 = Except.ok d →
      ((d = 0x54 ∨ d = 0x77 →
          (processDev cfg pt now pv fs dev).1 = [DecCall.meterCall mf])
        ∧ (d = 0x6a →
          (processDev cfg pt now pv fs dev).1 = [DecCall.plugCall mf])
        ∧ (d ≠ 0x54 → d ≠ 0x77 → d ≠ 0x6a →
          processDev cfg pt now pv fs dev = ([], Except.ok (pv, fs)))))
    ∧ ((mf = [] ∨ sd = []) →
        processDev cfg pt now pv fs dev = ([], Except.ok (pv, fs))) := by
  constructor
  · intro hmf hsd hd
    refine ⟨?_, ?_, ?_⟩
    · intro hcase
      rw [processDev_meter cfg pt now pv fs dev mf sd hmem hmsg hmf hsd
        (by rcases hcase with h | h <;> rw [h] at hd <;> [exact Or.inl hd; exact Or.inr hd])]
    · intro hcase
      rw [hcase] at hd
      rw [processDev_plug cfg pt now pv fs dev mf sd hmem hmsg hmf hsd hd]
    · intro h54 h77 h6a
      exact processDev_unknown cfg pt now pv fs dev mf sd d hmem hmsg hmf hsd hd h54 h77 h6a
  · intro hempty
    exact processDev_empty_msg cfg pt now pv fs dev mf sd hmsg hempty

/-- Witness for `C7_classification_exclusive`: a meter event (`0x54`)
invokes only the meter decoder, and a discriminator `0x42` event is a
complete no-op. -/
theorem C7_classification_exclusive_witness :
    (processDev ⟨["aa:bb"], "/log"⟩ none ⟨2024, 1, 1, 0, 0, 0⟩
        [("aa:bb", none)] ⟨[], []⟩
        ⟨"aa:bb", [(0xff, [0, 1]), (0x16, [0, 9, 0x54])]⟩).1
      = [DecCall.meterCall [0, 1]]
    ∧ processDev ⟨["aa:bb"], "/log"⟩ none ⟨2024, 1, 1, 0, 0, 0⟩
        [("aa:bb", none)] ⟨[], []⟩
        ⟨"aa:bb", [(0xff, [0, 1]), (0x16, [0, 9, 0x42])]⟩
      = ([], Except.ok ([("aa:bb", none)], ⟨[], []⟩)) := by
  constructor
  · exact ((C7_classification_exclusive _ none _ _ _ _ [0, 1] [0, 9, 0x54] 0x54
      (by decide) (by decide)).1 (by decide) (by decide) (by decide)).1 (Or.inl rfl)
  · exact ((C7_classification_exclusive _ none _ _ _ _ [0, 1] [0, 9, 0x42] 0x42
      (by decide) (by decide)).1 (by decide) (by decide) (by decide)).2.2
      (by decide) (by decide) (by decide)

/-- **C9** — an advertisement from an address not on the configured
allow-list is skipped before classification: no decoder call, no log
write, no change to any per-address state. -/
theorem C9_allowlist_prefilter (cfg : Config) (pt : Option Timestamp)
    (now : Timestamp) (pv : Store) (fs : FS) (dev : ScanEntry)
    (hmem : dev.addr ∉ cfg.macList) :
    processDev cfg pt now pv fs dev = ([], Except.ok (pv, fs)) := by
  unfold processDev
  rw [if_neg hmem]

/-- Witness for `C9_allowlist_prefilter`: a device with a valid meter
payload but an unlisted address is a complete no-op. -/
theorem C9_allowlist_prefilter_witness :
    processDev ⟨["aa:bb"], "/log"⟩ none ⟨2024, 1, 1, 0, 0, 0⟩
        [("aa:bb", none)] ⟨["/log/ccdd"], []⟩
        ⟨"cc:dd", [(0xff, [0, 0, 0, 0, 0, 0, 0, 0, 0, 0, 3, 0x99, 40]),
          (0x16, [0, 9, 0x54])]⟩
      = ([], Except.ok ([("aa:bb", none)], ⟨["/log/ccdd"], []⟩)) :=
  C9_allowlist_prefilter _ none _ _ _ _ (by decide)

lemma lookup_of_mem_keys {s : Store} {a : String} (h : a ∈ storeKeys s) :
    ∃ v, s.lookup a = some v := by
  induction s with
  | nil => simp [storeKeys] at h
  | cons p rest ih =>
    by_cases hp : a = p.1
    · exact ⟨p.2, by simp [List.lookup, beq_iff_eq, hp]⟩
    · have : a ∈ storeKeys rest := by
        simp [storeKeys] at h ⊢
        tauto
      obtain ⟨v, hv⟩ := ih this
      have hbeq : (a == p.1) = false := beq_eq_false_iff_ne.mpr hp
      exact ⟨v, by simp [List.lookup, hbeq, hv]⟩

lemma storeGet_eq {s : Store} {a : String} {v : Option Reading}
    (h : s.lookup a = some v) : storeGet s a = Except.ok v := by
  simp [storeGet, h]

lemma dedupCheck_eq (s : Store) (pt : Option Timestamp) (a : String)
    (v : Reading) (now : Timestamp) (stored : Option Reading)
    (h : s.lookup a = some stored) :
    dedupCheck s pt a v now
      = Except.ok (stored.isNone || decide (stored ≠ some v)
          || is_day_different pt now) := by
  cases stored with
  | none =>
    simp [dedupCheck, is_value_different, storeGet_eq h, Bind.bind, Except.bind]
  | some old =>
    simp [dedupCheck, is_value_different, storeGet_eq h, Bind.bind, Except.bind]

lemma dedupCheck_true_of_none {s : Store} {a : String}
    (pt : Option Timestamp) (v : Reading) (now : Timestamp)
    (h : s.lookup a = some none) :
    dedupCheck s pt a v now = Except.ok true := by
  rw [dedupCheck_eq s pt a v now none h]
  rfl

lemma dedupCheck_false_of_same {s : Store} {a : String} {v : Reading}
    {pt : Option Timestamp} {now : Timestamp}
    (h : s.lookup a = some (some v))
    (hday : is_day_different pt now = false) :
    dedupCheck s pt a v now = Except.ok false := by
  rw [dedupCheck_eq s pt a v now (some v) h]
  simp [hday]

lemma lookup_map_replace (s : Store) (k : String) (v : Option Reading)
    (h : k ∈ s.map Prod.fst) :
    (s.map (fun p => if p.1 = k then (p.1, v) else p)).lookup k = some v := by
  induction s with
  | nil => simp at h
  | cons p rest ih =>
    by_cases hp : p.1 = k
    · subst hp
      rw [List.map_cons, if_pos rfl]
      simp [List.lookup]
    · have hmem : k ∈ rest.map Prod.fst := by
        simp at h
        rcases h with h | h
        · exact absurd h.symm hp
        · simpa using h
      have hbeq : (k == p.1) = false := beq_eq_false_iff_ne.mpr (Ne.symm hp)
      rw [List.map_cons, if_neg hp]
      simp [List.lookup, hbeq, ih hmem]

lemma lookup_append_absent (s : Store) (k : String) (v : Option Reading)
    (h : k ∉ s.map Prod.fst) :
    (s ++ [(k, v)]).lookup k = some v := by
  induction s with
  | nil => simp [List.lookup]
  | cons p rest ih =>
    have hp : p.1 ≠ k := by
      intro hc
      exact h (by simp [hc])
    have hrest : k ∉ rest.map Prod.fst := fun hc => h (by simp [hc])
    have hbeq : (k == p.1) = false := beq_eq_false_iff_ne.mpr (Ne.symm hp)
    simp [List.lookup, hbeq, ih hrest]

lemma lookup_storeSet_self (s : Store) (k : String) (v : Option Reading) :
    (storeSet s k v).lookup k = some v := by
  unfold storeSet
  by_cases hk : k ∈ s.map Prod.fst
  · rw [if_pos hk]
    exact lookup_map_replace s k v hk
  · rw [if_neg hk]
    exact lookup_append_absent s k v hk

lemma storeKeys_storeSet_of_mem {s : Store} {k : String}
    (v : Option Reading) (h : k ∈ storeKeys s) :
    storeKeys (storeSet s k v) = storeKeys s := by
  unfold storeKeys at h ⊢
  unfold storeSet
  rw [if_pos h, List.map_map]
  congr 1
  funext p
  by_cases hp : p.1 = k <;> simp [hp]

lemma meterBranch_write (cfg : Config) (pt : Option Timestamp)
    (now : Timestamp) (pv : Store) (fs : FS) (addr : String)
    (mf : List Nat) (t h : ℚ)
    (hdec : decode_meter_temp_and_hum mf = Except.ok (t, h))
    (hchk : dedupCheck pv pt addr (Reading.meter t h) now = Except.ok true)
    (hdir : (cfg.logDir ++ "/" ++ stripColons addr) ∈ fs.dirs) :
    meterBranch cfg pt now pv fs addr mf
      = Except.ok (storeSet pv addr (some (Reading.meter t h)),
          fsWrite fs (logPath cfg.logDir addr now) ⟨now, [t, h]⟩) := by
  simp only [meterBranch, hdec, Bind.bind, Except.bind, hchk, if_true,
    update_log_file_ok now [t, h] hdir]
  rfl

lemma meterBranch_skip (cfg : Config) (pt : Option Timestamp)
    (now : Timestamp) (pv : Store) (fs : FS) (addr : String)
    (mf : List Nat) (t h : ℚ)
    (hdec : decode_meter_temp_and_hum mf = Except.ok (t, h))
    (hchk : dedupCheck pv pt addr (Reading.meter t h) now = Except.ok false) :
    meterBranch cfg pt now pv fs addr mf = Except.ok (pv, fs) := by
  simp only [meterBranch, hdec, Bind.bind, Except.bind, hchk]
  rfl

lemma meterBranch_io_err (cfg : Config) (pt : Option Timestamp)
    (now : Timestamp) (pv : Store) (fs : FS) (addr : String)
    (mf : List Nat) (t h : ℚ)
    (hdec : decode_meter_temp_and_hum mf = Except.ok (t, h))
    (hchk : dedupCheck pv pt addr (Reading.meter t h) now = Except.ok true)
    (hdir : (cfg.logDir ++ "/" ++ stripColons addr) ∉ fs.dirs) :
    meterBranch cfg pt now pv fs addr mf = Except.error Err.ioError := by
  simp only [meterBranch, hdec, Bind.bind, Except.bind, hchk, if_true,
    update_log_file_err now [t, h] hdir]

lemma meterBranch_dec_err (cfg : Config) (pt : Option Timestamp)
    (now : Timestamp) (pv : Store) (fs : FS) (addr : String)
    (mf : List Nat) (e : Err)
    (hdec : decode_meter_temp_and_hum mf = Except.error e) :
    meterBranch cfg pt now pv fs addr mf = Except.error e := by
  simp only [meterBranch, hdec, Bind.bind, Except.bind]

lemma plugBranch_dec_err (cfg : Config) (pt : Option Timestamp)
    (now : Timestamp) (pv : Store) (fs : FS) (addr : String)
    (mf : List Nat) (e : Err)
    (hdec : decode_plug_power mf = Except.error e) :
    plugBranch cfg pt now pv fs addr mf = Except.error e := by
  simp only [plugBranch, hdec, Bind.bind, Except.bind]

lemma plugBranch_write (cfg : Config) (pt : Option Timestamp)
    (now : Timestamp) (pv : Store) (fs : FS) (addr : String)
    (mf : List Nat) (p : ℚ)
    (hdec : decode_plug_power mf = Except.ok p)
    (hchk : dedupCheck pv pt addr (Reading.plug p) now = Except.ok true)
    (hdir : (cfg.logDir ++ "/" ++ stripColons addr) ∈ fs.dirs) :
    plugBranch cfg pt now pv fs addr mf
      = Except.ok (storeSet pv addr (some (Reading.plug p)),
          fsWrite fs (logPath cfg.logDir addr now) ⟨now, [p]⟩) := by
  simp only [plugBranch, hdec, Bind.bind, Except.bind, hchk, if_true,
    update_log_file_ok now [p] hdir]
  rfl

lemma plugBranch_skip (cfg : Config) (pt : Option Timestamp)
    (now : Timestamp) (pv : Store) (fs : FS) (addr : String)
    (mf : List Nat) (p : ℚ)
    (hdec : decode_plug_power mf = Except.ok p)
    (hchk : dedupCheck pv pt addr (Reading.plug p) now = Except.ok false) :
    plugBranch cfg pt now pv fs addr mf = Except.ok (pv, fs) := by
  simp only [plugBranch, hdec, Bind.bind, Except.bind, hchk]
  rfl

lemma plugBranch_io_err (cfg : Config) (pt : Option Timestamp)
    (now : Timestamp) (pv : Store) (fs : FS) (addr : String)
    (mf : List Nat) (p : ℚ)
    (hdec : decode_plug_power mf = Except.ok p)
    (hchk : dedupCheck pv pt addr (Reading.plug p) now = Except.ok true)
    (hdir : (cfg.logDir ++ "/" ++ stripColons addr) ∉ fs.dirs) :
    plugBranch cfg pt now pv fs addr mf = Except.error Err.ioError := by
  simp only [plugBranch, hdec, Bind.bind, Except.bind, hchk, if_true,
    update_log_file_err now [p] hdir]

/-- **C2** — dedup idempotence within a calendar day, for every reading
variant: starting with no stored reading for the address, a submission
that classifies and decodes to reading `r` — meter via discriminator
`0x54` or `0x77`, plug via `0x6a` — appends exactly one row (the
filesystem changes only by that appended row and the store records `r`),
and resubmitting the identical event while the previous scan happened on
the same day is a no-op: no row is appended and the per-address store is
unchanged. -/
theorem C2_dedup_idempotence (cfg : Config) (dev : ScanEntry)
    (mf sd : List Nat) (r : Reading) (pv : Store) (fs : FS)
    (pt : Option Timestamp) (now1 pt2 now2 : Timestamp)
    (hmem : dev.addr ∈ cfg.macList)
    (hmsg : get_broadcast_message dev = (mf, sd))
    (hmf : mf ≠ []) (hsd : sd ≠ [])
    (hroute :
      ((listGet sd 2 = Except.ok 0x54 ∨ listGet sd 2 = Except.ok 0x77)
        ∧ ∃ t h, decode_meter_temp_and_hum mf = Except.ok (t, h)
            ∧ r = Reading.meter t h)
      ∨ (listGet sd 2 = Except.ok 0x6a
        ∧ ∃ p, decode_plug_power mf = Except.ok p ∧ r = Reading.plug p))
    (hkey : pv.lookup dev.addr = some none)
    (hdir : (cfg.logDir ++ "/" ++ stripColons dev.addr) ∈ fs.dirs)
    (hday : pt2.day = now2.day) :
    (processDev cfg pt now1 pv fs dev).2
      = Except.ok (storeSet pv dev.addr (some r),
          fsWrite fs (logPath cfg.logDir dev.addr now1) ⟨now1, r.fields⟩)
    ∧ (processDev cfg (some pt2) now2 (storeSet pv dev.addr (some r))
          (fsWrite fs (logPath cfg.logDir dev.addr now1) ⟨now1, r.fields⟩)
          dev).2
      = Except.ok (storeSet pv dev.addr (some r),
          fsWrite fs (logPath cfg.logDir dev.addr now1) ⟨now1, r.fields⟩) := by
  rcases hroute with ⟨hd, t, h, hdec, hr⟩ | ⟨hd, p, hdec, hr⟩
  · subst hr
    constructor
    · rw [processDev_meter cfg pt now1 pv fs dev mf sd hmem hmsg hmf hsd hd]
      exact meterBranch_write cfg pt now1 pv fs dev.addr mf t h hdec
        (dedupCheck_true_of_none pt (Reading.meter t h) now1 hkey) hdir
    · rw [processDev_meter cfg (some pt2) now2 _ _ dev mf sd hmem hmsg hmf hsd hd]
      exact meterBranch_skip cfg (some pt2) now2 _ _ dev.addr mf t h hdec
        (dedupCheck_false_of_same (lookup_storeSet_self pv dev.addr _)
          (by simp [is_day_different, hday]))
  · subst hr
    constructor
    · rw [processDev_plug cfg pt now1 pv fs dev mf sd hmem hmsg hmf hsd hd]
      exact plugBranch_write cfg pt now1 pv fs dev.addr mf p hdec
        (dedupCheck_true_of_none pt (Reading.plug p) now1 hkey) hdir
    · rw [processDev_plug cfg (some pt2) now2 _ _ dev mf sd hmem hmsg hmf hsd hd]
      exact plugBranch_skip cfg (some pt2) now2 _ _ dev.addr mf p hdec
        (dedupCheck_false_of_same (lookup_storeSet_self pv dev.addr _)
          (by simp [is_day_different, hday]))

/-- Witness for `C2_dedup_idempotence` on a concrete plug device
(15.0 W) and two timestamps on the same day. -/
theorem C2_dedup_idempotence_witness :
    (processDev ⟨["aa:bb"], "/log"⟩ none ⟨2024, 1, 1, 10, 0, 0⟩
        [("aa:bb", none)] ⟨["/log/aabb"], []⟩
        ⟨"aa:bb", [(0xff, [0, 0, 0, 0, 0, 0, 0, 0, 1, 2, 0, 0, 0x00, 0x96]),
          (0x16, [0, 9, 0x6a])]⟩).2
      = Except.ok (storeSet [("aa:bb", none)] "aa:bb"
            (some (Reading.plug 15)),
          fsWrite ⟨["/log/aabb"], []⟩
            (logPath "/log" "aa:bb" ⟨2024, 1, 1, 10, 0, 0⟩)
            ⟨⟨2024, 1, 1, 10, 0, 0⟩, [15]⟩)
    ∧ (processDev ⟨["aa:bb"], "/log"⟩ (some ⟨2024, 1, 1, 10, 0, 0⟩)
          ⟨2024, 1, 1, 10, 0, 1⟩
          (storeSet [("aa:bb", none)] "aa:bb" (some (Reading.plug 15)))
          (fsWrite ⟨["/log/aabb"], []⟩
            (logPath "/log" "aa:bb" ⟨2024, 1, 1, 10, 0, 0⟩)
            ⟨⟨2024, 1, 1, 10, 0, 0⟩, [15]⟩)
          ⟨"aa:bb", [(0xff, [0, 0, 0, 0, 0, 0, 0, 0, 1, 2, 0, 0, 0x00, 0x96]),
            (0x16, [0, 9, 0x6a])]⟩).2
      = Except.ok (storeSet [("aa:bb", none)] "aa:bb"
            (some (Reading.plug 15)),
          fsWrite ⟨["/log/aabb"], []⟩
            (logPath "/log" "aa:bb" ⟨2024, 1, 1, 10, 0, 0⟩)
            ⟨⟨2024, 1, 1, 10, 0, 0⟩, [15]⟩) :=
  C2_dedup_idempotence ⟨["aa:bb"], "/log"⟩
    ⟨"aa:bb", [(0xff, [0, 0, 0, 0, 0, 0, 0, 0, 1, 2, 0, 0, 0x00, 0x96]),
      (0x16, [0, 9, 0x6a])]⟩
    [0, 0, 0, 0, 0, 0, 0, 0, 1, 2, 0, 0, 0x00, 0x96] [0, 9, 0x6a]
    (Reading.plug 15)
    [("aa:bb", none)] ⟨["/log/aabb"], []⟩ none ⟨2024, 1, 1, 10, 0, 0⟩
    ⟨2024, 1, 1, 10, 0, 0⟩ ⟨2024, 1, 1, 10, 0, 1⟩
    (by decide) (by decide) (by decide) (by decide)
    (Or.inr ⟨by decide, 15, by decide, rfl⟩)
    (by decide) (by decide) (by decide)

/-- Configuration of the day-rotation counterexample trace. -/
def c1Cfg : Config := ⟨["aa:bb"], "/log"⟩

/-- The meter device of the counterexample trace (temperature 25.3,
humidity 40, discriminator `0x54`). -/
def c1Dev : ScanEntry :=
  ⟨"aa:bb", [(0xff, [0, 0, 0, 0, 0, 0, 0, 0, 0, 0, 3, 0x99, 40]),
    (0x16, [0, 9, 0x54])]⟩

/-- Scan iteration 1: the device is seen late on 2024-01-01 and written. -/
def c1It1 : Iteration := ⟨⟨2024, 1, 1, 23, 50, 0⟩, [c1Dev]⟩

/-- Scan iteration 2: just after midnight the scan finds no device, but
`prev_time` advances to 2024-01-02. -/
def c1It2 : Iteration := ⟨⟨2024, 1, 2, 0, 0, 5⟩, []⟩

/-- The time of scan iteration 3, later on 2024-01-02. -/
def c1T3 : Timestamp := ⟨2024, 1, 2, 0, 1, 0⟩

/-- Scan iteration 3: the device reappears with the unchanged reading. -/
def c1It3 : Iteration := ⟨c1T3, [c1Dev]⟩

/-- The reading decoded from `c1Dev` throughout the trace. -/
def c1Reading : Reading := Reading.meter (253 / 10) 40

/-- **C1 counterexample** — the script's dedup check is keyed on the
global previous scan time, not on the address's last write.  Concrete
trace: the device is written late on 2024-01-01 (iteration 1); an empty
scan just after midnight advances `prev_time` to 2024-01-02 (iteration
2).  When the unchanged reading then arrives at 00:01 on 2024-01-02, the
check `is_value_different or is_day_different` returns `false`, although
the address's last write (its only row, under `20240101.csv`) was on the
previous calendar day, so the spec's `shouldLog` is `true`.  Iteration 3
therefore appends nothing: the device gets no row on 2024-01-02 even
though an event arrived that day, refuting the per-address day clause and
the at-least-one-row-per-device-per-day guarantee. -/
theorem C1_counterexample :
    runLoop c1Cfg (initState c1Cfg ⟨["/log/aabb"], []⟩) [c1It1, c1It2]
      = Except.ok ⟨some ⟨2024, 1, 2, 0, 0, 5⟩,
          [("aa:bb", some c1Reading)],
          ⟨["/log/aabb"],
            [("/log/aabb/20240101.csv",
              [⟨⟨2024, 1, 1, 23, 50, 0⟩, [253 / 10, 40]⟩])]⟩⟩
    ∧ dedupCheck [("aa:bb", some c1Reading)] (some ⟨2024, 1, 2, 0, 0, 5⟩)
        "aa:bb" c1Reading c1T3 = Except.ok false
    ∧ shouldLogSpec (some c1Reading) (some (2024, 1, 1)) c1Reading c1T3 = true
    ∧ runLoop c1Cfg (initState c1Cfg ⟨["/log/aabb"], []⟩) [c1It1, c1It2, c1It3]
      = Except.ok ⟨some c1T3,
          [("aa:bb", some c1Reading)],
          ⟨["/log/aabb"],
            [("/log/aabb/20240101.csv",
              [⟨⟨2024, 1, 1, 23, 50, 0⟩, [253 / 10, 40]⟩])]⟩⟩
    ∧ fileRows ⟨["/log/aabb"],
          [("/log/aabb/20240101.csv",
            [⟨⟨2024, 1, 1, 23, 50, 0⟩, [253 / 10, 40]⟩])]⟩
        "/log/aabb/20240102.csv" = [] := by
  refine ⟨by decide, by decide, by decide, by decide, by decide⟩

/-- **C1 (amended)** — what the check before each write actually returns:
true iff no reading is stored for the address, or the candidate differs
from the stored one (exact, variant-typed comparison), or no scan
iteration has completed yet, or the previous scan iteration's
day-of-month differs from `now`'s.  The day clause is global — it is not
the address's last-write day — so a day boundary only forces writes in
the first scan iteration after it. -/
theorem C1_dedup_check_rule (pv : Store) (pt : Option Timestamp)
    (addr : String) (v : Reading) (now : Timestamp)
    (stored : Option Reading)
    (hkey : pv.lookup addr = some stored) :
    dedupCheck pv pt addr v now
      = Except.ok (stored.isNone || decide (stored ≠ some v) || pt.isNone
          || decide (pt.map Timestamp.day ≠ some now.day)) := by
  rw [dedupCheck_eq pv pt addr v now stored hkey]
  cases pt with
  | none => simp [is_day_different]
  | some tprev => simp [is_day_different]

/-- Witness for `C1_dedup_check_rule`: an unchanged stored reading with a
previous scan on the same day-of-month yields `false`. -/
theorem C1_dedup_check_rule_witness :
    dedupCheck [("aa:bb", some c1Reading)] (some ⟨2024, 1, 2, 0, 0, 5⟩)
        "aa:bb" c1Reading c1T3
      = Except.ok ((some c1Reading).isNone
          || decide (some c1Reading ≠ some c1Reading)
          || (some (⟨2024, 1, 2, 0, 0, 5⟩ : Timestamp)).isNone
          || decide ((some (⟨2024, 1, 2, 0, 0, 5⟩ : Timestamp)).map
              Timestamp.day ≠ some c1T3.day)) :=
  C1_dedup_check_rule [("aa:bb", some c1Reading)]
    (some ⟨2024, 1, 2, 0, 0, 5⟩) "aa:bb" c1Reading c1T3 (some c1Reading)
    (by decide)

/-- Configuration of the storage-failure trace: two allow-listed devices. -/
def c3Cfg : Config := ⟨["aa:bb", "cc:dd"], "/log"⟩

/-- Only the second device's directory exists. -/
def c3Fs : FS := ⟨["/log/ccdd"], []⟩

/-- Meter device whose per-address directory is missing. -/
def c3DevX : ScanEntry :=
  ⟨"aa:bb", [(0xff, [0, 0, 0, 0, 0, 0, 0, 0, 0, 0, 3, 0x99, 40]),
    (0x16, [0, 9, 0x54])]⟩

/-- Plug device (power 15.0 W) whose directory exists. -/
def c3DevY : ScanEntry :=
  ⟨"cc:dd", [(0xff, [0, 0, 0, 0, 0, 0, 0, 0, 1, 2, 0, 0, 0x00, 0x96]),
    (0x16, [0, 9, 0x6a])]⟩

/-- Iteration with the failing device X. -/
def c3ItX : Iteration := ⟨⟨2024, 1, 1, 10, 0, 0⟩, [c3DevX]⟩

/-- Later iteration with the healthy device Y. -/
def c3ItY : Iteration := ⟨⟨2024, 1, 1, 10, 0, 1⟩, [c3DevY]⟩

/-- **C3 counterexample** — a storage failure is not recoverable in the
script: no handler surrounds the write (only `KeyboardInterrupt` is
caught), so the `OSError` propagates and the loop dies.  Concretely,
device X's directory is missing, so processing X's event aborts the whole
run with an I/O error and device Y's later event is never processed —
although the very same Y-only trace would have appended Y's row.  This
refutes "the process does not crash" and "a write failure for address X
does not prevent a write for address Y in a later event". -/
theorem C3_counterexample :
    runLoop c3Cfg (initState c3Cfg c3Fs) [c3ItX, c3ItY]
      = Except.error Err.ioError
    ∧ runLoop c3Cfg (initState c3Cfg c3Fs) [c3ItY]
      = Except.ok ⟨some ⟨2024, 1, 1, 10, 0, 1⟩,
          [("aa:bb", none), ("cc:dd", some (Reading.plug 15))],
          ⟨["/log/ccdd"],
            [("/log/ccdd/20240101.csv",
              [⟨⟨2024, 1, 1, 10, 0, 1⟩, [15]⟩])]⟩⟩ := by
  refine ⟨by decide, by decide⟩

/-- **C3 (amended)** — any failing log write (missing directory) raises
an uncaught I/O error, whichever decoder classified the event (meter via
`0x54`/`0x77`, plug via `0x6a`): the event's processing returns the error
instead of a new state, so the per-address store is never updated by the
failed attempt (the store commit is sequenced after a successful write),
and the whole remaining run aborts — no later event, for this or any
other address, is processed. -/
theorem C3_storage_failure_aborts (cfg : Config) (dev : ScanEntry)
    (mf sd : List Nat) (r : Reading) (pv : Store) (fs : FS)
    (pt : Option Timestamp) (now : Timestamp)
    (hmem : dev.addr ∈ cfg.macList)
    (hmsg : get_broadcast_message dev = (mf, sd))
    (hmf : mf ≠ []) (hsd : sd ≠ [])
    (hroute :
      ((listGet sd 2 = Except.ok 0x54 ∨ listGet sd 2 = Except.ok 0x77)
        ∧ ∃ t h, decode_meter_temp_and_hum mf = Except.ok (t, h)
            ∧ r = Reading.meter t h)
      ∨ (listGet sd 2 = Except.ok 0x6a
        ∧ ∃ p, decode_plug_power mf = Except.ok p ∧ r = Reading.plug p))
    (hchk : dedupCheck pv pt dev.addr r now = Except.ok true)
    (hdir : (cfg.logDir ++ "/" ++ stripColons dev.addr) ∉ fs.dirs) :
    (processDev cfg pt now pv fs dev).2 = Except.error Err.ioError
    ∧ ∀ rest : List Iteration,
        runLoop cfg ⟨pt, pv, fs⟩ (⟨now, [dev]⟩ :: rest)
          = Except.error Err.ioError := by
  have hstep : (processDev cfg pt now pv fs dev).2 = Except.error Err.ioError := by
    rcases hroute with ⟨hd, t, h, hdec, hr⟩ | ⟨hd, p, hdec, hr⟩
    · subst hr
      rw [processDev_meter cfg pt now pv fs dev mf sd hmem hmsg hmf hsd hd]
      exact meterBranch_io_err cfg pt now pv fs dev.addr mf t h hdec hchk hdir
    · subst hr
      rw [processDev_plug cfg pt now pv fs dev mf sd hmem hmsg hmf hsd hd]
      exact plugBranch_io_err cfg pt now pv fs dev.addr mf p hdec hchk hdir
  refine ⟨hstep, fun rest => ?_⟩
  simp [runLoop, processIteration, processDevs, hstep]

/-- Witness for `C3_storage_failure_aborts` on the concrete failing meter
device X, with the healthy plug device Y's iteration as the aborted rest. -/
theorem C3_storage_failure_aborts_witness :
    (processDev c3Cfg none ⟨2024, 1, 1, 10, 0, 0⟩
        (initPrevVal c3Cfg.macList) c3Fs c3DevX).2 = Except.error Err.ioError
    ∧ runLoop c3Cfg ⟨none, initPrevVal c3Cfg.macList, c3Fs⟩
        (⟨⟨2024, 1, 1, 10, 0, 0⟩, [c3DevX]⟩ :: [c3ItY])
        = Except.error Err.ioError :=
  ⟨(C3_storage_failure_aborts c3Cfg c3DevX
      [0, 0, 0, 0, 0, 0, 0, 0, 0, 0, 3, 0x99, 40] [0, 9, 0x54]
      (Reading.meter (253 / 10) 40)
      (initPrevVal c3Cfg.macList) c3Fs none ⟨2024, 1, 1, 10, 0, 0⟩
      (by decide) (by decide) (by decide) (by decide)
      (Or.inl ⟨Or.inl (by decide), 253 / 10, 40, by decide, rfl⟩)
      (by decide) (by decide)).1,
    (C3_storage_failure_aborts c3Cfg c3DevX
      [0, 0, 0, 0, 0, 0, 0, 0, 0, 0, 3, 0x99, 40] [0, 9, 0x54]
      (Reading.meter (253 / 10) 40)
      (initPrevVal c3Cfg.macList) c3Fs none ⟨2024, 1, 1, 10, 0, 0⟩
      (by decide) (by decide) (by decide) (by decide)
      (Or.inl ⟨Or.inl (by decide), 253 / 10, 40, by decide, rfl⟩)
      (by decide) (by decide)).2 [c3ItY]⟩

lemma decode_meter_short (mf : List Nat) (hlen : mf.length ≤ 12) :
    decode_meter_temp_and_hum mf = Except.error Err.indexError := by
  unfold decode_meter_temp_and_hum
  rcases listGet_ok_or_err mf 10 with ⟨v10, h10⟩ | h10
  · rcases listGet_ok_or_err mf 11 with ⟨v11, h11⟩ | h11
    · have h12 : listGet mf 12 = Except.error Err.indexError :=
        listGet_err_of_le hlen
      simp [h10, h11, h12, Bind.bind, Except.bind]
    · simp [h10, h11, Bind.bind, Except.bind]
  · simp [h10, Bind.bind, Except.bind]

lemma decode_plug_short (mf : List Nat) (hlen : mf.length ≤ 13) :
    decode_plug_power mf = Except.error Err.indexError := by
  unfold decode_plug_power
  rcases listGet_ok_or_err mf 8 with ⟨v8, h8⟩ | h8
  · rcases listGet_ok_or_err mf 9 with ⟨v9, h9⟩ | h9
    · rcases listGet_ok_or_err mf 12 with ⟨v12, h12⟩ | h12
      · have h13 : listGet mf 13 = Except.error Err.indexError :=
          listGet_err_of_le hlen
        simp [h8, h9, h12, h13, Bind.bind, Except.bind]
      · simp [h8, h9, h12, Bind.bind, Except.bind]
    · simp [h8, h9, Bind.bind, Except.bind]
  · simp [h8, Bind.bind, Except.bind]

/-- **C4 counterexample** — there is no length validation before
decoding.  A classified meter event whose manufacturer data has only two
bytes makes the decoder read past the end: the event is not dropped
silently, an `IndexError` propagates.  Likewise a nonempty service datum
shorter than three bytes blows up at `service_data_bytes[2]` before
classification. -/
theorem C4_counterexample :
    (processDev ⟨["aa:bb"], "/log"⟩ none ⟨2024, 1, 1, 0, 0, 0⟩
        [("aa:bb", none)] ⟨[], []⟩
        ⟨"aa:bb", [(0xff, [1, 2]), (0x16, [0, 9, 0x54])]⟩).2
      = Except.error Err.indexError
    ∧ (processDev ⟨["aa:bb"], "/log"⟩ none ⟨2024, 1, 1, 0, 0, 0⟩
        [("aa:bb", none)] ⟨[], []⟩
        ⟨"aa:bb", [(0xff, [1, 2]), (0x16, [0x09])]⟩).2
      = Except.error Err.indexError := by
  refine ⟨by decide, by decide⟩

/-- **C4 (amended)** — the script validates no lengths: for an
allow-listed event with nonempty manufacturer and service data, a service
datum shorter than 3 bytes, or a meter-classified manufacturer datum
shorter than 13 bytes, or a plug-classified one shorter than 14 bytes,
raises an uncaught `IndexError` instead of a silent drop.  Only an absent
(empty) datum is dropped silently. -/
theorem C4_no_length_validation (cfg : Config) (pt : Option Timestamp)
    (now : Timestamp) (pv : Store) (fs : FS) (dev : ScanEntry)
    (mf sd : List Nat)
    (hmem : dev.addr ∈ cfg.macList)
    (hmsg : get_broadcast_message dev = (mf, sd))
    (hmf : mf ≠ []) (hsd : sd ≠ [])
    (hcase : sd.length ≤ 2
      ∨ ((listGet sd 2 = Except.ok 0x54 ∨ listGet sd 2 = Except.ok 0x77)
          ∧ mf.length ≤ 12)
      ∨ (listGet sd 2 = Except.ok 0x6a ∧ mf.length ≤ 13)) :
    (processDev cfg pt now pv fs dev).2 = Except.error Err.indexError := by
  rcases hcase with hlen | ⟨hd, hlen⟩ | ⟨hd, hlen⟩
  · rw [processDev_sd_short cfg pt now pv fs dev mf sd hmem hmsg hmf hsd hlen]
  · rw [processDev_meter cfg pt now pv fs dev mf sd hmem hmsg hmf hsd hd]
    exact meterBranch_dec_err cfg pt now pv fs dev.addr mf Err.indexError
      (decode_meter_short mf hlen)
  · rw [processDev_plug cfg pt now pv fs dev mf sd hmem hmsg hmf hsd hd]
    exact plugBranch_dec_err cfg pt now pv fs dev.addr mf Err.indexError
      (decode_plug_short mf hlen)

/-- Witness for `C4_no_length_validation`: a plug-classified event with a
3-byte manufacturer datum raises. -/
theorem C4_no_length_validation_witness :
    (processDev ⟨["aa:bb"], "/log"⟩ none ⟨2024, 1, 1, 0, 0, 0⟩
        [("aa:bb", none)] ⟨[], []⟩
        ⟨"aa:bb", [(0xff, [1, 2, 3]), (0x16, [0, 9, 0x6a])]⟩).2
      = Except.error Err.indexError :=
  C4_no_length_validation ⟨["aa:bb"], "/log"⟩ none ⟨2024, 1, 1, 0, 0, 0⟩
    [("aa:bb", none)] ⟨[], []⟩
    ⟨"aa:bb", [(0xff, [1, 2, 3]), (0x16, [0, 9, 0x6a])]⟩
    [1, 2, 3] [0, 9, 0x6a]
    (by decide) (by decide) (by decide) (by decide)
    (Or.inr (Or.inr ⟨by decide, by decide⟩))

/-- **C8** — the row path is
`<base>/<colon-free address>/<YYYYMMDD>.csv` and appending to an existing
directory works, but the claimed directory creation does not exist in the
code: with the per-address directory absent (even though the base
directory exists), `update_log_file` raises instead of creating it —
contradicting the script's own comment "folder is automatically
created". -/
theorem C8_log_path_no_mkdir :
    logPath "/log" "aa:bb" ⟨2024, 8, 1, 12, 0, 0⟩ = "/log/aabb/20240801.csv"
    ∧ update_log_file ⟨["/log", "/log/aabb"], []⟩
        ("/log" ++ "/" ++ stripColons "aa:bb") ⟨2024, 8, 1, 12, 0, 0⟩ [15]
      = Except.ok ⟨["/log", "/log/aabb"],
          [("/log/aabb/20240801.csv", [⟨⟨2024, 8, 1, 12, 0, 0⟩, [15]⟩])]⟩
    ∧ update_log_file ⟨["/log", "/log/aabb"],
          [("/log/aabb/20240801.csv", [⟨⟨2024, 8, 1, 11, 0, 0⟩, [14]⟩])]⟩
        ("/log" ++ "/" ++ stripColons "aa:bb") ⟨2024, 8, 1, 12, 0, 0⟩ [15]
      = Except.ok ⟨["/log", "/log/aabb"],
          [("/log/aabb/20240801.csv",
            [⟨⟨2024, 8, 1, 11, 0, 0⟩, [14]⟩, ⟨⟨2024, 8, 1, 12, 0, 0⟩, [15]⟩])]⟩
    ∧ update_log_file ⟨["/log"], []⟩
        ("/log" ++ "/" ++ stripColons "aa:bb") ⟨2024, 8, 1, 12, 0, 0⟩ [15]
      = Except.error Err.ioError := by
  refine ⟨by decide, by decide, by decide, by decide⟩

lemma decode_meter_not_keyError (mf : List Nat) :
    decode_meter_temp_and_hum mf ≠ Except.error Err.keyError := by
  unfold decode_meter_temp_and_hum
  rcases listGet_ok_or_err mf 10 with ⟨v10, h10⟩ | h10 <;>
    rcases listGet_ok_or_err mf 11 with ⟨v11, h11⟩ | h11 <;>
      rcases listGet_ok_or_err mf 12 with ⟨v12, h12⟩ | h12 <;>
        simp [h10, h11, h12, Bind.bind, Except.bind]

lemma decode_plug_not_keyError (mf : List Nat) :
    decode_plug_power mf ≠ Except.error Err.keyError := by
  unfold decode_plug_power
  rcases listGet_ok_or_err mf 8 with ⟨v8, h8⟩ | h8 <;>
    rcases listGet_ok_or_err mf 9 with ⟨v9, h9⟩ | h9 <;>
      rcases listGet_ok_or_err mf 12 with ⟨v12, h12⟩ | h12 <;>
        rcases listGet_ok_or_err mf 13 with ⟨v13, h13⟩ | h13 <;>
          simp [h8, h9, h12, h13, Bind.bind, Except.bind]

lemma meterBranch_keys (cfg : Config) (pt : Option Timestamp)
    (now : Timestamp) (pv : Store) (fs : FS) (addr : String)
    (mf : List Nat) (hmem : addr ∈ storeKeys pv) :
    meterBranch cfg pt now pv fs addr mf ≠ Except.error Err.keyError
    ∧ ∀ pv' fs', meterBranch cfg pt now pv fs addr mf = Except.ok (pv', fs') →
        storeKeys pv' = storeKeys pv := by
  cases hdec : decode_meter_temp_and_hum mf with
  | error e =>
    rw [meterBranch_dec_err cfg pt now pv fs addr mf e hdec]
    refine ⟨?_, by simp⟩
    intro hc
    rw [Except.error.injEq] at hc
    rw [hc] at hdec
    exact decode_meter_not_keyError mf hdec
  | ok th =>
    obtain ⟨stored, hs⟩ := lookup_of_mem_keys hmem
    have hchk := dedupCheck_eq pv pt addr (Reading.meter th.1 th.2) now stored hs
    cases hb : (stored.isNone || decide (stored ≠ some (Reading.meter th.1 th.2))
        || is_day_different pt now) with
    | false =>
      rw [hb] at hchk
      rw [meterBranch_skip cfg pt now pv fs addr mf th.1 th.2 (by rw [hdec]) hchk]
      exact ⟨by simp, by intro pv' fs' h; injection h with h; injection h with h1 h2; rw [← h1]⟩
    | true =>
      rw [hb] at hchk
      by_cases hdir : (cfg.logDir ++ "/" ++ stripColons addr) ∈ fs.dirs
      · rw [meterBranch_write cfg pt now pv fs addr mf th.1 th.2 (by rw [hdec]) hchk hdir]
        refine ⟨by simp, ?_⟩
        intro pv' fs' h
        injection h with h
        injection h with h1 h2
        rw [← h1]
        exact storeKeys_storeSet_of_mem _ hmem
      · rw [meterBranch_io_err cfg pt now pv fs addr mf th.1 th.2 (by rw [hdec]) hchk hdir]
        exact ⟨by simp, by simp⟩

lemma plugBranch_keys (cfg : Config) (pt : Option Timestamp)
    (now : Timestamp) (pv : Store) (fs : FS) (addr : String)
    (mf : List Nat) (hmem : addr ∈ storeKeys pv) :
    plugBranch cfg pt now pv fs addr mf ≠ Except.error Err.keyError
    ∧ ∀ pv' fs', plugBranch cfg pt now pv fs addr mf = Except.ok (pv', fs') →
        storeKeys pv' = storeKeys pv := by
  cases hdec : decode_plug_power mf with
  | error e =>
    rw [plugBranch_dec_err cfg pt now pv fs addr mf e hdec]
    refine ⟨?_, by simp⟩
    intro hc
    rw [Except.error.injEq] at hc
    rw [hc] at hdec
    exact decode_plug_not_keyError mf hdec
  | ok p =>
    obtain ⟨stored, hs⟩ := lookup_of_mem_keys hmem
    have hchk := dedupCheck_eq pv pt addr (Reading.plug p) now stored hs
    cases hb : (stored.isNone || decide (stored ≠ some (Reading.plug p))
        || is_day_different pt now) with
    | false =>
      rw [hb] at hchk
      have : plugBranch cfg pt now pv fs addr mf = Except.ok (pv, fs) := by
        simp only [plugBranch, hdec, Bind.bind, Except.bind, hchk]
        rfl
      rw [this]
      exact ⟨by simp, by intro pv' fs' h; injection h with h; injection h with h1 h2; rw [← h1]⟩
    | true =>
      rw [hb] at hchk
      by_cases hdir : (cfg.logDir ++ "/" ++ stripColons addr) ∈ fs.dirs
      · have : plugBranch cfg pt now pv fs addr mf
            = Except.ok (storeSet pv addr (some (Reading.plug p)),
                fsWrite fs (logPath cfg.logDir addr now) ⟨now, [p]⟩) := by
          simp only [plugBranch, hdec, Bind.bind, Except.bind, hchk, if_true,
            update_log_file_ok now [p] hdir]
          rfl
        rw [this]
        refine ⟨by simp, ?_⟩
        intro pv' fs' h
        injection h with h
        injection h with h1 h2
        rw [← h1]
        exact storeKeys_storeSet_of_mem _ hmem
      · have : plugBranch cfg pt now pv fs addr mf = Except.error Err.ioError := by
          simp only [plugBranch, hdec, Bind.bind, Except.bind, hchk, if_true,
            update_log_file_err now [p] hdir]
        rw [this]
        exact ⟨by simp, by simp⟩

lemma processDev_keys (cfg : Config) (pt : Option Timestamp)
    (now : Timestamp) (pv : Store) (fs : FS) (dev : ScanEntry)
    (hk : storeKeys pv = cfg.macList) :
    (processDev cfg pt now pv fs dev).2 ≠ Except.error Err.keyError
    ∧ ∀ pv' fs', (processDev cfg pt now pv fs dev).2 = Except.ok (pv', fs') →
        storeKeys pv' = cfg.macList := by
  by_cases hmem : dev.addr ∈ cfg.macList
  case neg =>
    rw [processDev_not_mem cfg pt now pv fs dev hmem]
    exact ⟨by simp, by intro pv' fs' h; injection h with h; injection h with h1 h2; rw [← h1, hk]⟩
  case pos =>
  have hmemk : dev.addr ∈ storeKeys pv := by rw [hk]; exact hmem
  obtain ⟨mf, sd, hmsg⟩ : ∃ mf sd, get_broadcast_message dev = (mf, sd) :=
    ⟨_, _, rfl⟩
  by_cases hempty : mf = [] ∨ sd = []
  · rw [processDev_empty_msg cfg pt now pv fs dev mf sd hmsg hempty]
    exact ⟨by simp, by intro pv' fs' h; injection h with h; injection h with h1 h2; rw [← h1, hk]⟩
  · push_neg at hempty
    obtain ⟨hmf, hsd⟩ := hempty
    rcases listGet_ok_or_err sd 2 with ⟨d, hd⟩ | hd
    · by_cases hmeter : d = 0x54 ∨ d = 0x77
      · have hd' : listGet sd 2 = Except.ok 0x54 ∨ listGet sd 2 = Except.ok 0x77 := by
          rcases hmeter with h | h
          · exact Or.inl (by rw [← h]; exact hd)
          · exact Or.inr (by rw [← h]; exact hd)
        rw [processDev_meter cfg pt now pv fs dev mf sd hmem hmsg hmf hsd hd']
        obtain ⟨h1, h2⟩ := meterBranch_keys cfg pt now pv fs dev.addr mf hmemk
        exact ⟨h1, fun pv' fs' h => by rw [h2 pv' fs' h, hk]⟩
      · by_cases hplug : d = 0x6a
        · rw [hplug] at hd
          rw [processDev_plug cfg pt now pv fs dev mf sd hmem hmsg hmf hsd hd]
          obtain ⟨h1, h2⟩ := plugBranch_keys cfg pt now pv fs dev.addr mf hmemk
          exact ⟨h1, fun pv' fs' h => by rw [h2 pv' fs' h, hk]⟩
        · push_neg at hmeter
          rw [processDev_unknown cfg pt now pv fs dev mf sd d hmem hmsg hmf hsd hd
            hmeter.1 hmeter.2 hplug]
          exact ⟨by simp, by intro pv' fs' h; injection h with h; injection h with h1 h2; rw [← h1, hk]⟩
    · have : processDev cfg pt now pv fs dev = ([], Except.error Err.indexError) := by
        unfold processDev
        rw [if_pos hmem, hmsg]
        rw [if_neg (by simp [hmf, hsd])]
        rw [hd]
      rw [this]
      exact ⟨by simp, by simp⟩

lemma processDevs_keys (cfg : Config) (pt : Option Timestamp)
    (now : Timestamp) :
    ∀ (devs : List ScanEntry) (pv : Store) (fs : FS),
      storeKeys pv = cfg.macList →
      processDevs cfg pt now pv fs devs ≠ Except.error Err.keyError
      ∧ ∀ pv' fs', processDevs cfg pt now pv fs devs = Except.ok (pv', fs') →
          storeKeys pv' = cfg.macList := by
  intro devs
  induction devs with
  | nil =>
    intro pv fs hk
    refine ⟨by simp [processDevs], ?_⟩
    intro pv' fs' h
    simp only [processDevs, Except.ok.injEq, Prod.mk.injEq] at h
    rw [← h.1, hk]
  | cons dev rest ih =>
    intro pv fs hk
    obtain ⟨h1, h2⟩ := processDev_keys cfg pt now pv fs dev hk
    cases hpd : (processDev cfg pt now pv fs dev).2 with
    | error e =>
      have hres : processDevs cfg pt now pv fs (dev :: rest) = Except.error e := by
        simp only [processDevs, hpd]
      rw [hres]
      refine ⟨?_, by simp⟩
      intro hc
      rw [Except.error.injEq] at hc
      rw [hc] at hpd
      exact h1 hpd
    | ok pf =>
      have hres : processDevs cfg pt now pv fs (dev :: rest)
          = processDevs cfg pt now pf.1 pf.2 rest := by
        simp only [processDevs, hpd]
      rw [hres]
      exact ih pf.1 pf.2 (h2 pf.1 pf.2 (by rw [hpd]))

lemma runLoop_keys (cfg : Config) :
    ∀ (its : List Iteration) (st : MainState),
      storeKeys st.prevVal = cfg.macList →
      runLoop cfg st its ≠ Except.error Err.keyError
      ∧ ∀ st', runLoop cfg st its = Except.ok st' →
          storeKeys st'.prevVal = cfg.macList := by
  intro its
  induction its with
  | nil =>
    intro st hk
    refine ⟨by simp [runLoop], ?_⟩
    intro st' h
    simp only [runLoop, Except.ok.injEq] at h
    rw [← h, hk]
  | cons it rest ih =>
    intro st hk
    obtain ⟨h1, h2⟩ := processDevs_keys cfg st.prevTime it.now it.devices
      st.prevVal st.fs hk
    cases hpi : processDevs cfg st.prevTime it.now st.prevVal st.fs it.devices with
    | error e =>
      have hres : runLoop cfg st (it :: rest) = Except.error e := by
        simp only [runLoop, processIteration, hpi]
      rw [hres]
      refine ⟨?_, by simp⟩
      intro hc
      rw [Except.error.injEq] at hc
      rw [hc] at hpi
      exact h1 hpi
    | ok pf =>
      have hres : runLoop cfg st (it :: rest)
          = runLoop cfg ⟨some it.now, pf.1, pf.2⟩ rest := by
        simp only [runLoop, processIteration, hpi]
      rw [hres]
      exact ih ⟨some it.now, pf.1, pf.2⟩ (h2 pf.1 pf.2 hpi)

lemma initPrevVal_keys (macList : List String) :
    storeKeys (initPrevVal macList) = macList := by
  unfold storeKeys initPrevVal
  rw [List.map_map]
  exact List.map_id macList

lemma initPrevVal_lookup {macList : List String} {a : String}
    (h : a ∈ macList) : (initPrevVal macList).lookup a = some none := by
  induction macList with
  | nil => simp at h
  | cons m rest ih =>
    by_cases hm : a = m
    · simp [initPrevVal, List.lookup, beq_iff_eq, hm]
    · have hbeq : (a == m) = false := beq_eq_false_iff_ne.mpr hm
      have hmem : a ∈ rest := by
        rcases List.mem_cons.mp h with h1 | h1
        · exact absurd h1 hm
        · exact h1
      simpa [initPrevVal, List.lookup, hbeq] using ih hmem

/-- **C10** — the per-address store starts with exactly the allow-list
addresses as keys, each mapped to "no reading yet"; every run of the loop
preserves the key set (writes only touch allow-listed addresses, which
are already keys), and consequently no dictionary lookup ever fails: a
run never aborts with a `KeyError`. -/
theorem C10_store_invariant (cfg : Config) (fs0 : FS)
    (its : List Iteration) :
    storeKeys (initPrevVal cfg.macList) = cfg.macList
    ∧ (∀ a ∈ cfg.macList, (initPrevVal cfg.macList).lookup a = some none)
    ∧ (∀ st : MainState, runLoop cfg (initState cfg fs0) its = Except.ok st →
        storeKeys st.prevVal = cfg.macList)
    ∧ runLoop cfg (initState cfg fs0) its ≠ Except.error Err.keyError := by
  have hinit : storeKeys (initState cfg fs0).prevVal = cfg.macList :=
    initPrevVal_keys cfg.macList
  obtain ⟨h1, h2⟩ := runLoop_keys cfg its (initState cfg fs0) hinit
  exact ⟨initPrevVal_keys cfg.macList,
    fun a ha => initPrevVal_lookup ha, h2, h1⟩

/-- Witness for `C10_store_invariant` on the day-rotation trace: the key
set survives the whole run and the run does not end in a `KeyError`. -/
theorem C10_store_invariant_witness :
    storeKeys (initPrevVal c1Cfg.macList) = c1Cfg.macList
    ∧ (initPrevVal c1Cfg.macList).lookup "aa:bb" = some none
    ∧ storeKeys [("aa:bb", some c1Reading)] = c1Cfg.macList
    ∧ runLoop c1Cfg (initState c1Cfg ⟨["/log/aabb"], []⟩)
        [c1It1, c1It2, c1It3] ≠ Except.error Err.keyError := by
  have h := C10_store_invariant c1Cfg ⟨["/log/aabb"], []⟩ [c1It1, c1It2, c1It3]
  refine ⟨h.1, h.2.1 "aa:bb" (by decide), ?_, h.2.2.2⟩
  exact h.2.2.1 ⟨some c1T3, [("aa:bb", some c1Reading)],
    ⟨["/log/aabb"],
      [("/log/aabb/20240101.csv",
        [⟨⟨2024, 1, 1, 23, 50, 0⟩, [253 / 10, 40]⟩])]⟩⟩ (by decide)
